import Mathlib

/-!
Shallow embedding of the real-time chat server (server.js together with
server/models/Message.js): the Mongoose message store, the in-memory
presence (`users`) and typing (`typingUsers`) registries, the socket.io
event handlers (`user_join`, `send_message`, `typing`, `private_message`,
`disconnect`) and the `GET /api/messages` history query.

Machine-level conventions: socket ids and display names are `String`;
JavaScript `undefined`/`null` are `Option.none`; timestamps (`Date.now`,
`createdAt`) are `Nat` supplied by the environment at append time; the
store-assigned Mongo `_id` is a `Nat` counter. `Message.create` is modelled
by `appendStore`: the Mongoose `required: true` validator on the `text`
path rejects a missing or empty string value, and a `storeOk` flag models
reachability of the backing store.
-/

/-- A record persisted by `Message.create` (schema of server/models/Message.js). -/
structure StoredMessage where
  id : Nat
  room : Option String
  text : String
  sender : String
  senderId : String
  «to» : Option String
  isPrivate : Bool
  createdAt : Nat
deriving Repr, DecidableEq

/-- The message collection plus the id counter standing for Mongo object ids. -/
structure Store where
  messages : List StoredMessage
  nextId : Nat
deriving Repr, DecidableEq

/-- How `Message.create` can reject: schema validation, or unreachable store. -/
inductive StoreError where
  | validationError
  | storageUnavailable
deriving Repr, DecidableEq

/-- The fields a handler passes to `Message.create` before the store assigns
`id` and `createdAt`. `text` is an `Option` because the private path passes
the raw (possibly absent) payload field through. -/
structure MessageDraft where
  room : Option String
  text : Option String
  sender : String
  senderId : String
  «to» : Option String
  isPrivate : Bool
deriving Repr, DecidableEq

/-- Mongoose `required: true` on a String path: present and nonempty. -/
def validText : Option String → Bool
  | none => false
  | some t => t != ""

/-- `Message.create`: validate, then persist with store-assigned `id` and
`createdAt`; `storeOk = false` models an unreachable backing store. -/
def appendStore (draft : MessageDraft) (st : Store) (storeOk : Bool) (now : Nat) :
    Except StoreError (StoredMessage × Store) :=
  if !validText draft.text then .error .validationError
  else if !storeOk then .error .storageUnavailable
  else
    let saved : StoredMessage :=
      { id := st.nextId, room := draft.room, text := draft.text.getD "",
        sender := draft.sender, senderId := draft.senderId, «to» := draft.«to»,
        isPrivate := draft.isPrivate, createdAt := now }
    .ok (saved, { messages := st.messages ++ [saved], nextId := st.nextId + 1 })

/-- Effective limit of `GET /api/messages`: `Math.min(parseInt(req.query.limit) || 50, 200)`;
`none` stands for an absent or unparsable parameter, and `0` is falsy in JS. -/
def effLimit : Option Nat → Nat
  | none => min 50 200
  | some n => min (if n = 0 then 50 else n) 200

/-- Effective room of `GET /api/messages`: `req.query.room || 'global'`;
the empty string is falsy in JS. -/
def effRoom : Option String → String
  | none => "global"
  | some r => if r = "" then "global" else r

/-- Descending comparison used by `.sort({ createdAt: -1 })`. -/
def byNewest (a b : StoredMessage) : Bool := b.createdAt ≤ a.createdAt

/-- `GET /api/messages`: filter by the effective room, fetch newest-first up
to the effective limit, then reverse to oldest-first. -/
def queryRecent (st : Store) (limitParam : Option Nat) (roomParam : Option String) :
    List StoredMessage :=
  let matching := st.messages.filter (fun m => m.room == some (effRoom roomParam))
  (((matching.mergeSort byNewest).take (effLimit limitParam)).reverse)

/-- Association-list lookup standing for a JS object indexed by socket id. -/
def lookupAssoc (k : String) : List (String × α) → Option α
  | [] => none
  | (a, b) :: t => if a = k then some b else lookupAssoc k t

/-- `obj[k] = v`: overwrite in place when the key exists, else insert at the end. -/
def setAssoc (k : String) (v : α) : List (String × α) → List (String × α)
  | [] => [(k, v)]
  | (a, b) :: t => if a = k then (k, v) :: t else (a, b) :: setAssoc k v t

/-- `delete obj[k]`: no-op when the key is absent. -/
def removeAssoc (k : String) (l : List (String × α)) : List (String × α) :=
  l.filter (fun p => p.1 != k)

/-- Process-wide server state: the `users` and `typingUsers` registries
(each keyed by socket id, valued by the possibly-undefined username) and
the message store. -/
structure SrvState where
  users : List (String × Option String)
  typingUsers : List (String × Option String)
  store : Store
deriving Repr, DecidableEq

/-- Payload of `user_join`: a bare username string or an object whose
`username` field may be absent. -/
inductive JoinPayload where
  | name (s : String)
  | obj (username : Option String) (room : Option String)
deriving Repr, DecidableEq

/-- Payload of `send_message`: `{ message?, text?, room? }`. -/
structure SendPayload where
  message : Option String
  text : Option String
  room : Option String
deriving Repr, DecidableEq

/-- Payload of `private_message`: `{ to, message }`, either possibly absent. -/
structure PrivateSendPayload where
  «to» : Option String
  message : Option String
deriving Repr, DecidableEq

/-- The `receive_message` broadcast payload; its `text` field carries the
value the JS code emits under the key `message` (`saved.text`). -/
structure ChatPayload where
  id : Nat
  sender : String
  senderId : String
  text : String
  room : Option String
  isPrivate : Bool
  timestamp : Nat
deriving Repr, DecidableEq

/-- The `private_message` outbound payload; `text` carries `saved.text`. -/
structure PrivatePayload where
  id : Nat
  sender : String
  senderId : String
  «to» : Option String
  text : String
  isPrivate : Bool
  timestamp : Nat
deriving Repr, DecidableEq

/-- The outbound event vocabulary of the server. -/
inductive EventPayload where
  | userList (l : List (String × Option String))
  | userJoined (username : Option String) (id : String)
  | receiveMessage (p : ChatPayload)
  | typingList (names : List (Option String))
  | privateMessageEv (p : PrivatePayload)
  | userLeft (username : Option String) (id : String)
deriving Repr, DecidableEq

/-- One outbound emission: `io.emit` (broadcast to every connection),
`socket.to(room).emit` (members of `room` except the emitting socket; each
socket is a member of the room named by its own id), or `socket.emit`. -/
inductive Outbound where
  | broadcast (e : EventPayload)
  | toRoom (room : Option String) (e : EventPayload)
  | toSelf (e : EventPayload)
deriving Repr, DecidableEq

/-- Sender name resolution `users[socket.id]?.username || 'Anonymous'`:
JS `||` falls through on `undefined` and on the empty string. -/
def resolveSender (users : List (String × Option String)) (sid : String) : String :=
  match lookupAssoc sid users with
  | some (some name) => if name = "" then "Anonymous" else name
  | some none => "Anonymous"
  | none => "Anonymous"

/-- The `user_join` handler. -/
def handleUserJoin (st : SrvState) (sid : String) (payload : JoinPayload) :
    SrvState × List Outbound :=
  let username := match payload with
    | .name s => some s
    | .obj u _ => u
  let users := setAssoc sid username st.users
  ({ st with users := users },
   [.broadcast (.userList users), .broadcast (.userJoined username sid)])

/-- The draft the `send_message` handler passes to `Message.create`:
`text = messageData?.message ?? messageData?.text ?? ''` and
`room = messageData?.room ?? 'global'` (nullish coalescing keeps empty strings). -/
def publicDraft (users : List (String × Option String)) (sid : String)
    (p : SendPayload) : MessageDraft :=
  { room := some (p.room.getD "global"),
    text := some (match p.message with
      | some m => m
      | none => p.text.getD ""),
    sender := resolveSender users sid,
    senderId := sid,
    «to» := none,
    isPrivate := false }

/-- The broadcast payload built from the persisted record. -/
def chatProjection (saved : StoredMessage) : ChatPayload :=
  { id := saved.id, sender := saved.sender, senderId := saved.senderId,
    text := saved.text, room := saved.room, isPrivate := saved.isPrivate,
    timestamp := saved.createdAt }

/-- The `send_message` handler: build the draft, `Message.create`, then on
success broadcast the persisted projection; on failure log only. -/
def handleSendMessage (st : SrvState) (sid : String) (p : SendPayload)
    (storeOk : Bool) (now : Nat) : SrvState × List Outbound :=
  match appendStore (publicDraft st.users sid p) st.store storeOk now with
  | .ok (saved, store) =>
      ({ st with store := store },
       [.broadcast (.receiveMessage (chatProjection saved))])
  | .error _ => (st, [])

/-- The draft the `private_message` handler passes to `Message.create`. -/
def privateDraft (users : List (String × Option String)) (sid : String)
    (q : PrivateSendPayload) : MessageDraft :=
  { room := none,
    text := q.message,
    sender := resolveSender users sid,
    senderId := sid,
    «to» := q.«to»,
    isPrivate := true }

/-- The unicast payload built from the persisted private record. -/
def privateProjection (saved : StoredMessage) : PrivatePayload :=
  { id := saved.id, sender := saved.sender, senderId := saved.senderId,
    «to» := saved.«to», text := saved.text, isPrivate := saved.isPrivate,
    timestamp := saved.createdAt }

/-- The `private_message` handler: persist, then `socket.to(to).emit` and
`socket.emit`; on failure log only. -/
def handlePrivateMessage (st : SrvState) (sid : String) (q : PrivateSendPayload)
    (storeOk : Bool) (now : Nat) : SrvState × List Outbound :=
  match appendStore (privateDraft st.users sid q) st.store storeOk now with
  | .ok (saved, store) =>
      ({ st with store := store },
       [.toRoom q.«to» (.privateMessageEv (privateProjection saved)),
        .toSelf (.privateMessageEv (privateProjection saved))])
  | .error _ => (st, [])

/-- The `typing` handler: a silent no-op for an unregistered connection,
else set or clear the mark and broadcast the full typing-name list. -/
def handleTyping (st : SrvState) (sid : String) (isTyping : Bool) :
    SrvState × List Outbound :=
  match lookupAssoc sid st.users with
  | some username =>
      let typing := if isTyping then setAssoc sid username st.typingUsers
                    else removeAssoc sid st.typingUsers
      ({ st with typingUsers := typing },
       [.broadcast (.typingList (typing.map Prod.snd))])
  | none => (st, [])

/-- The `disconnect` handler: `user_left` only for a registered connection,
then unconditional removal from both registries and rebroadcast of both lists. -/
def handleDisconnect (st : SrvState) (sid : String) : SrvState × List Outbound :=
  let leftEvents := match lookupAssoc sid st.users with
    | some username => [Outbound.broadcast (.userLeft username sid)]
    | none => []
  let users := removeAssoc sid st.users
  let typing := removeAssoc sid st.typingUsers
  ({ st with users := users, typingUsers := typing },
   leftEvents ++
     [.broadcast (.userList users),
      .broadcast (.typingList (typing.map Prod.snd))])

/-- One inbound connection event. -/
inductive Event where
  | join (sid : String) (payload : JoinPayload)
  | send (sid : String) (p : SendPayload) (storeOk : Bool) (now : Nat)
  | typing (sid : String) (isTyping : Bool)
  | privateSend (sid : String) (q : PrivateSendPayload) (storeOk : Bool) (now : Nat)
  | disconnect (sid : String)
deriving Repr, DecidableEq

/-- Dispatch of one inbound event to its handler. -/
def step (st : SrvState) : Event → SrvState × List Outbound
  | .join sid p => handleUserJoin st sid p
  | .send sid p ok now => handleSendMessage st sid p ok now
  | .typing sid b => handleTyping st sid b
  | .privateSend sid q ok now => handlePrivateMessage st sid q ok now
  | .disconnect sid => handleDisconnect st sid

/-- Transport-level delivery set of one emission, given the connected socket
ids and the emitting socket: `io.emit` reaches everyone, `socket.to(r)`
reaches the socket whose id names the room `r` except the emitter, and
`socket.emit` reaches the emitter. -/
def deliveredTo (connected : List String) (sender : String) : Outbound → List String
  | .broadcast _ => connected
  | .toRoom room _ => connected.filter (fun c => some c == room && c != sender)
  | .toSelf _ => [sender]

/-- Delivery set of a whole emission list. -/
def deliveries (es : List Outbound) (connected : List String) (sender : String) :
    List String :=
  (es.map (deliveredTo connected sender)).flatten

/-- Invariant: every typing mark belongs to a registered participant. -/
def TypingSubsetUsers (st : SrvState) : Prop :=
  ∀ k v, lookupAssoc k st.typingUsers = some v → (lookupAssoc k st.users).isSome

/-- The empty server state at process start. -/
def emptySrv : SrvState := { users := [], typingUsers := [], store := { messages := [], nextId := 0 } }

/-- Number of stored messages matching the effective room of a query. -/
def roomCount (s : Store) (rp : Option String) : Nat :=
  (s.messages.filter (fun m => m.room == some (effRoom rp))).length

/-- Result of a public send that names the room by the empty string (JS
nullish coalescing keeps `room: ''` as-is on the send path). -/
def sendEmptyRoom : SrvState × List Outbound :=
  handleSendMessage emptySrv "c1"
    { message := some "hi", text := none, room := some "" } true 3

/-- The record that send persists, with `room = ""`. -/
def mEmptyRoom : StoredMessage :=
  { id := 0, room := some "", text := "hi", sender := "Anonymous",
    senderId := "c1", «to» := none, isPrivate := false, createdAt := 3 }

/-- Record persisted by the public-send scenario on the empty state. -/
def pubSaved : StoredMessage :=
  { id := 0, room := some "global", text := "hi", sender := "Anonymous",
    senderId := "c1", «to» := none, isPrivate := false, createdAt := 0 }

/-- Store after the public-send scenario on the empty state. -/
def pubStore : Store := { messages := [pubSaved], nextId := 1 }

/-- Record persisted by the private-send scenario on the empty state. -/
def privSaved : StoredMessage :=
  { id := 0, room := none, text := "yo", sender := "Anonymous",
    senderId := "c1", «to» := some "c2", isPrivate := true, createdAt := 0 }

/-- Store after the private-send scenario on the empty state. -/
def privStore : Store := { messages := [privSaved], nextId := 1 }

/-- Two equal-timestamp messages in room "global" (Date.now ties at
millisecond resolution). -/
def mTie1 : StoredMessage :=
  { id := 0, room := some "global", text := "a", sender := "A",
    senderId := "c1", «to» := none, isPrivate := false, createdAt := 5 }

/-- The second message of the tie scenario. -/
def mTie2 : StoredMessage :=
  { id := 1, room := some "global", text := "b", sender := "B",
    senderId := "c2", «to» := none, isPrivate := false, createdAt := 5 }

/-- Store holding the two tied messages. -/
def storeTies : Store := { messages := [mTie1, mTie2], nextId := 2 }

/-! ## Association-list lemmas -/

theorem lookup_set_self (k : String) (v : α) (l : List (String × α)) :
    lookupAssoc k (setAssoc k v l) = some v := by
  induction l with
  | nil => simp [setAssoc, lookupAssoc]
  | cons hd tl ih =>
      obtain ⟨a, b⟩ := hd
      by_cases h : a = k
      · simp [setAssoc, lookupAssoc, h]
      · simp [setAssoc, lookupAssoc, h, ih]

theorem lookup_set_ne (k j : String) (v : α) (l : List (String × α)) (h : j ≠ k) :
    lookupAssoc j (setAssoc k v l) = lookupAssoc j l := by
  induction l with
  | nil =>
      have hkj : k ≠ j := Ne.symm h
      simp [setAssoc, lookupAssoc, hkj]
  | cons hd tl ih =>
      obtain ⟨a, b⟩ := hd
      by_cases hk : a = k
      · have haj : a ≠ j := fun hh => h (hh ▸ hk)
        simp [setAssoc, lookupAssoc, hk, haj, Ne.symm h]
      · by_cases hj : a = j
        · simp [setAssoc, lookupAssoc, hk, hj, h]
        · simp [setAssoc, lookupAssoc, hk, hj, ih]

theorem lookup_remove_self (k : String) (l : List (String × α)) :
    lookupAssoc k (removeAssoc k l) = none := by
  induction l with
  | nil => simp [removeAssoc, lookupAssoc]
  | cons hd tl ih =>
      obtain ⟨a, b⟩ := hd
      by_cases h : a = k
      · simpa [removeAssoc, lookupAssoc, h] using ih
      · simpa [removeAssoc, lookupAssoc, h] using ih

theorem lookup_remove_ne (k j : String) (l : List (String × α)) (h : j ≠ k) :
    lookupAssoc j (removeAssoc k l) = lookupAssoc j l := by
  induction l with
  | nil => simp [removeAssoc, lookupAssoc]
  | cons hd tl ih =>
      obtain ⟨a, b⟩ := hd
      by_cases hk : a = k
      · have haj : a ≠ j := fun hh => h (hh ▸ hk)
        simpa [removeAssoc, lookupAssoc, hk, haj, Ne.symm h] using ih
      · by_cases hj : a = j
        · simp [removeAssoc, lookupAssoc, hk, hj, h]
        · simpa [removeAssoc, lookupAssoc, hk, hj] using ih

theorem mem_keys_setAssoc (k x : String) (v : α) (l : List (String × α))
    (h : x ∈ (setAssoc k v l).map Prod.fst) : x = k ∨ x ∈ l.map Prod.fst := by
  induction l with
  | nil => simpa [setAssoc] using h
  | cons hd tl ih =>
      obtain ⟨a, b⟩ := hd
      by_cases hk : a = k
      · rw [hk] at h ⊢
        simpa [setAssoc] using h
      · simp only [setAssoc, hk, if_false, List.map_cons, List.mem_cons] at h
        rcases h with h | h
        · exact Or.inr (by simp [h])
        · rcases ih h with h | h
          · exact Or.inl h
          · exact Or.inr (by simp [h])

theorem nodup_keys_setAssoc (k : String) (v : α) (l : List (String × α))
    (h : (l.map Prod.fst).Nodup) : ((setAssoc k v l).map Prod.fst).Nodup := by
  induction l with
  | nil => simp [setAssoc]
  | cons hd tl ih =>
      obtain ⟨a, b⟩ := hd
      simp only [List.map_cons, List.nodup_cons] at h
      by_cases hk : a = k
      · rw [hk] at h ⊢
        simpa [setAssoc] using h
      · simp only [setAssoc, hk, if_false, List.map_cons, List.nodup_cons]
        refine ⟨fun hmem => ?_, ih h.2⟩
        rcases mem_keys_setAssoc k a v tl hmem with hh | hh
        · exact hk hh
        · exact h.1 hh

theorem filter_key_eq_nil (k : String) (l : List (String × α))
    (h : k ∉ l.map Prod.fst) : l.filter (fun p => p.1 == k) = [] := by
  induction l with
  | nil => simp
  | cons hd tl ih =>
      obtain ⟨a, b⟩ := hd
      simp only [List.map_cons, List.mem_cons] at h
      push_neg at h
      have ha : (a == k) = false := by
        have : a ≠ k := Ne.symm h.1
        simpa [beq_iff_eq] using this
      simp [List.filter, ha, ih h.2]

theorem count_key_setAssoc (k : String) (v : α) (l : List (String × α))
    (h : (l.map Prod.fst).Nodup) :
    ((setAssoc k v l).filter (fun p => p.1 == k)).length = 1 := by
  induction l with
  | nil => simp [setAssoc]
  | cons hd tl ih =>
      obtain ⟨a, b⟩ := hd
      simp only [List.map_cons, List.nodup_cons] at h
      by_cases hk : a = k
      · rw [hk]
        have hfil : tl.filter (fun p => p.1 == k) = [] :=
          filter_key_eq_nil k tl (hk ▸ h.1)
        simp [setAssoc, List.filter, hfil]
      · have ha : (a == k) = false := by
          simpa [beq_iff_eq] using hk
        simp [setAssoc, hk, List.filter, ha, ih h.2]

/-! ## Claim theorems -/

/-- C5: Presence Registry join is an idempotent overwrite: after
`join(c1, "Alice")` then `join(c1, "Bob")`, lookup of `c1` yields the
display name `"Bob"` and the registry holds exactly one entry for `c1`. -/
theorem join_idempotent_overwrite (st : SrvState) (c1 a b : String)
    (hnd : (st.users.map Prod.fst).Nodup) :
    lookupAssoc c1 ((handleUserJoin (handleUserJoin st c1 (.name a)).1 c1 (.name b)).1).users
      = some (some b) ∧
    (((handleUserJoin (handleUserJoin st c1 (.name a)).1 c1 (.name b)).1).users.filter
        (fun p => p.1 == c1)).length = 1 := by
  constructor
  · simp [handleUserJoin, lookup_set_self]
  · have h1 : (((handleUserJoin st c1 (.name a)).1).users.map Prod.fst).Nodup := by
      simpa [handleUserJoin] using nodup_keys_setAssoc c1 (some a) st.users hnd
    simpa [handleUserJoin] using
      count_key_setAssoc c1 (some b) ((handleUserJoin st c1 (.name a)).1).users h1

/-- C5 witness: the two joins on the empty registry. -/
theorem join_idempotent_overwrite_witness :
    lookupAssoc "c1"
        ((handleUserJoin (handleUserJoin emptySrv "c1" (.name "Alice")).1 "c1"
          (.name "Bob")).1).users = some (some "Bob") ∧
    (((handleUserJoin (handleUserJoin emptySrv "c1" (.name "Alice")).1 "c1"
          (.name "Bob")).1).users.filter (fun p => p.1 == "c1")).length = 1 :=
  join_idempotent_overwrite emptySrv "c1" "Alice" "Bob" (by simp [emptySrv])

/-- C7: the `typing` handler is a silent no-op for an unregistered connection;
for a registered one it sets the mark on `isTyping = true`, clears it on
`false`, always broadcasts the full current typing-name list, and leaves the
presence registry and the store untouched. -/
theorem typing_event_spec (st : SrvState) (sid : String) (b : Bool) :
    (lookupAssoc sid st.users = none → handleTyping st sid b = (st, [])) ∧
    (∀ u, lookupAssoc sid st.users = some u →
      (handleTyping st sid true).1.typingUsers = setAssoc sid u st.typingUsers ∧
      (handleTyping st sid false).1.typingUsers = removeAssoc sid st.typingUsers ∧
      (handleTyping st sid b).2 =
        [Outbound.broadcast
          (.typingList ((handleTyping st sid b).1.typingUsers.map Prod.snd))] ∧
      (handleTyping st sid b).1.users = st.users ∧
      (handleTyping st sid b).1.store = st.store) := by
  constructor
  · intro h
    simp [handleTyping, h]
  · intro u hu
    refine ⟨by simp [handleTyping, hu], by simp [handleTyping, hu], ?_, ?_, ?_⟩ <;>
      cases b <;> simp [handleTyping, hu]

/-- C6: disconnect broadcasts `user_left` exactly when the connection had a
registered participant, and unconditionally removes the connection from both
registries and rebroadcasts both refreshed full lists. -/
theorem disconnect_spec (st : SrvState) (sid : String) :
    lookupAssoc sid (handleDisconnect st sid).1.users = none ∧
    lookupAssoc sid (handleDisconnect st sid).1.typingUsers = none ∧
    (handleDisconnect st sid).1.users = removeAssoc sid st.users ∧
    (handleDisconnect st sid).1.typingUsers = removeAssoc sid st.typingUsers ∧
    ((∃ u, lookupAssoc sid st.users = some u) ↔
      (∃ u, Outbound.broadcast (.userLeft u sid) ∈ (handleDisconnect st sid).2)) ∧
    Outbound.broadcast (.userList (handleDisconnect st sid).1.users)
      ∈ (handleDisconnect st sid).2 ∧
    Outbound.broadcast
        (.typingList ((handleDisconnect st sid).1.typingUsers.map Prod.snd))
      ∈ (handleDisconnect st sid).2 := by
  refine ⟨?_, ?_, ?_, ?_, ?_, ?_, ?_⟩ <;>
    cases hl : lookupAssoc sid st.users <;>
      simp [handleDisconnect, hl, lookup_remove_self]

/-- C2: when `Message.create` fails, neither send handler mutates any state
or emits anything: no broadcast, registries untouched, and every subsequent
history query returns exactly what it returned before the event. -/
theorem store_failure_isolated (st : SrvState) (sid : String) (p : SendPayload)
    (q : PrivateSendPayload) (ok : Bool) (now : Nat) (e1 e2 : StoreError)
    (h1 : appendStore (publicDraft st.users sid p) st.store ok now = .error e1)
    (h2 : appendStore (privateDraft st.users sid q) st.store ok now = .error e2) :
    handleSendMessage st sid p ok now = (st, []) ∧
    handlePrivateMessage st sid q ok now = (st, []) ∧
    (∀ lp rp, queryRecent (handleSendMessage st sid p ok now).1.store lp rp
      = queryRecent st.store lp rp) ∧
    (∀ lp rp, queryRecent (handlePrivateMessage st sid q ok now).1.store lp rp
      = queryRecent st.store lp rp) := by
  have hs : handleSendMessage st sid p ok now = (st, []) := by
    simp [handleSendMessage, h1]
  have hp : handlePrivateMessage st sid q ok now = (st, []) := by
    simp [handlePrivateMessage, h2]
  exact ⟨hs, hp, fun lp rp => by rw [hs], fun lp rp => by rw [hp]⟩

/-- C2 witness: a public and a private send against an unreachable store. -/
theorem store_failure_isolated_witness :
    handleSendMessage emptySrv "c1" { message := some "hi", text := none, room := none }
        false 0 = (emptySrv, []) ∧
    handlePrivateMessage emptySrv "c1" { «to» := some "c2", message := some "yo" }
        false 0 = (emptySrv, []) ∧
    (∀ lp rp, queryRecent (handleSendMessage emptySrv "c1"
          { message := some "hi", text := none, room := none } false 0).1.store lp rp
      = queryRecent emptySrv.store lp rp) ∧
    (∀ lp rp, queryRecent (handlePrivateMessage emptySrv "c1"
          { «to» := some "c2", message := some "yo" } false 0).1.store lp rp
      = queryRecent emptySrv.store lp rp) :=
  store_failure_isolated emptySrv "c1"
    { message := some "hi", text := none, room := none }
    { «to» := some "c2", message := some "yo" } false 0
    .storageUnavailable .storageUnavailable rfl rfl

/-- C3 counterexample: `Message.create` rejects an empty `text` (the schema
marks it `required`, and Mongoose required string paths reject the empty
string), so a public send whose payload carries neither `message` nor `text`
is not persisted and not broadcast. -/
theorem empty_text_rejected_cex :
    appendStore
      { room := some "global", text := some "", sender := "Anonymous",
        senderId := "c1", «to» := none, isPrivate := false }
      { messages := [], nextId := 0 } true 0 = .error .validationError ∧
    handleSendMessage emptySrv "c1" { message := none, text := none, room := none } true 0
      = (emptySrv, []) := by
  constructor <;> rfl

/-- C3 amended: a public send whose effective text is the empty string (the
payload carries `message = ""`, or neither field, or only `text = ""`) fails
schema validation in `Message.create`: nothing is persisted and nothing is
broadcast, with the failure only logged. -/
theorem empty_text_rejected (st : SrvState) (sid : String) (p : SendPayload)
    (ok : Bool) (now : Nat)
    (h : p.message = some "" ∨ (p.message = none ∧ (p.text = none ∨ p.text = some ""))) :
    appendStore (publicDraft st.users sid p) st.store ok now = .error .validationError ∧
    handleSendMessage st sid p ok now = (st, []) := by
  have htext : (publicDraft st.users sid p).text = some "" := by
    rcases h with h | ⟨h1, h2⟩
    · simp [publicDraft, h]
    · rcases h2 with h2 | h2 <;> simp [publicDraft, h1, h2]
  have hap : appendStore (publicDraft st.users sid p) st.store ok now
      = .error .validationError := by
    simp [appendStore, htext, validText]
  exact ⟨hap, by simp [handleSendMessage, hap]⟩

/-- C3 witness: the payload with neither text field, on the empty state. -/
theorem empty_text_rejected_witness :
    appendStore (publicDraft emptySrv.users "c1"
        { message := none, text := none, room := none }) emptySrv.store true 0
      = .error .validationError ∧
    handleSendMessage emptySrv "c1" { message := none, text := none, room := none } true 0
      = (emptySrv, []) :=
  empty_text_rejected emptySrv "c1" { message := none, text := none, room := none } true 0
    (Or.inr ⟨rfl, Or.inl rfl⟩)

/-- Scenario for the C9 counterexample: a client joins with the empty string
as its display name. -/
def st9 : SrvState := (handleUserJoin emptySrv "c1" (.name "")).1

/-- C9 counterexample: the connection has a registered participant whose
display name is the empty string, yet the persisted sender is the fallback
literal `"Anonymous"` (JS `||` also falls through on `""`), so the sender
field is neither the registered display name nor reserved to unregistered
connections. -/
theorem sender_fallback_cex :
    lookupAssoc "c1" st9.users = some (some "") ∧
    (handleSendMessage st9 "c1" { message := some "hi", text := none, room := none }
        true 5).1.store.messages
      = [{ id := 0, room := some "global", text := "hi", sender := "Anonymous",
             senderId := "c1", «to» := none, isPrivate := false, createdAt := 5 }] ∧
    (("" : String) == "Anonymous") = false := by
  refine ⟨rfl, by rfl, by rfl⟩

/-- C9 amended: both send paths persist `sender` as
`users[socket.id]?.username || 'Anonymous'`: the registered display name when
one is registered, defined and nonempty; the literal `"Anonymous"` when the
connection has no registered participant, or its registered name is undefined
or the empty string. -/
theorem sender_resolution (st : SrvState) (sid : String) (p : SendPayload)
    (q : PrivateSendPayload) :
    (publicDraft st.users sid p).sender = resolveSender st.users sid ∧
    (privateDraft st.users sid q).sender = resolveSender st.users sid ∧
    (∀ n, lookupAssoc sid st.users = some (some n) → n ≠ "" →
      resolveSender st.users sid = n) ∧
    (lookupAssoc sid st.users = none → resolveSender st.users sid = "Anonymous") ∧
    (lookupAssoc sid st.users = some none → resolveSender st.users sid = "Anonymous") ∧
    (lookupAssoc sid st.users = some (some "") →
      resolveSender st.users sid = "Anonymous") := by
  refine ⟨rfl, rfl, ?_, ?_, ?_, ?_⟩
  · intro n hn hne
    simp [resolveSender, hn, hne]
  · intro hn
    simp [resolveSender, hn]
  · intro hn
    simp [resolveSender, hn]
  · intro hn
    simp [resolveSender, hn]

/-- C10: every event preserves the invariant that each connection holding a
typing mark also holds a presence entry. -/
theorem typing_subset_users_invariant (st : SrvState) (e : Event)
    (h : TypingSubsetUsers st) : TypingSubsetUsers (step st e).1 := by
  cases e with
  | join sid payload =>
      intro k v hk
      simp only [step, handleUserJoin] at hk ⊢
      by_cases hks : k = sid
      · subst hks
        simp [lookup_set_self]
      · rw [lookup_set_ne sid k _ st.users hks]
        exact h k v hk
  | send sid p ok now =>
      intro k v hk
      cases hap : appendStore (publicDraft st.users sid p) st.store ok now with
      | ok r =>
          obtain ⟨saved, store2⟩ := r
          simp only [step, handleSendMessage, hap] at hk ⊢
          exact h k v hk
      | error err =>
          simp only [step, handleSendMessage, hap] at hk ⊢
          exact h k v hk
  | typing sid b =>
      cases hu : lookupAssoc sid st.users with
      | none =>
          intro k v hk
          simp only [step, handleTyping, hu] at hk ⊢
          exact h k v hk
      | some u =>
          intro k v hk
          simp only [step, handleTyping, hu] at hk ⊢
          by_cases hks : k = sid
          · subst hks
            simp [hu]
          · cases b with
            | true =>
                simp only [if_true] at hk
                rw [lookup_set_ne sid k _ st.typingUsers hks] at hk
                exact h k v hk
            | false =>
                simp only [Bool.false_eq_true, if_false] at hk
                rw [lookup_remove_ne sid k st.typingUsers hks] at hk
                exact h k v hk
  | privateSend sid q ok now =>
      intro k v hk
      cases hap : appendStore (privateDraft st.users sid q) st.store ok now with
      | ok r =>
          obtain ⟨saved, store2⟩ := r
          simp only [step, handlePrivateMessage, hap] at hk ⊢
          exact h k v hk
      | error err =>
          simp only [step, handlePrivateMessage, hap] at hk ⊢
          exact h k v hk
  | disconnect sid =>
      intro k v hk
      simp only [step, handleDisconnect] at hk ⊢
      by_cases hks : k = sid
      · subst hks
        rw [lookup_remove_self] at hk
        cases hk
      · rw [lookup_remove_ne sid k st.typingUsers hks] at hk
        rw [lookup_remove_ne sid k st.users hks]
        exact h k v hk

/-- C10 witness: the invariant survives a typing event on a two-user state
whose typing registry already holds one mark. -/
theorem typing_subset_users_invariant_witness :
    (lookupAssoc "c1"
        (step { users := [("c1", some "A"), ("c2", some "B")],
                typingUsers := [("c1", some "A")],
                store := { messages := [], nextId := 0 } }
          (.typing "c2" true)).1.users).isSome = true :=
  typing_subset_users_invariant
    { users := [("c1", some "A"), ("c2", some "B")],
      typingUsers := [("c1", some "A")],
      store := { messages := [], nextId := 0 } }
    (.typing "c2" true)
    (by
      intro k v hk
      by_cases hks : k = "c1"
      · subst hks
        simp [lookupAssoc]
      · simp [lookupAssoc, Ne.symm hks] at hk)
    "c1" (some "A") (by simp [step, handleTyping, lookupAssoc, setAssoc])

/-- Unfolding of the history query. -/
theorem queryRecent_eq (st : Store) (lp : Option Nat) (rp : Option String) :
    queryRecent st lp rp
      = (((st.messages.filter (fun m => m.room == some (effRoom rp))).mergeSort
          byNewest).take (effLimit lp)).reverse := rfl

/-- The descending comparison is transitive. -/
theorem byNewest_trans : ∀ a b c : StoredMessage,
    byNewest a b → byNewest b c → byNewest a c := by
  intro a b c hab hbc
  simp only [byNewest, decide_eq_true_eq] at hab hbc ⊢
  exact le_trans hbc hab

/-- The descending comparison is total. -/
theorem byNewest_total : ∀ a b : StoredMessage, byNewest a b || byNewest b a := by
  intro a b
  simp only [byNewest, Bool.or_eq_true, decide_eq_true_eq]
  exact le_total b.createdAt a.createdAt

/-- C4 counterexample: with `limit = 0` the query still returns up to 50
entries (JS `parseInt(limit) || 50` treats 0 as falsy), and with two
equal-createdAt messages the returned sequence is not strictly increasing
(the tie survives into the output, here even in reversed insertion order). -/
theorem query_limits_cex :
    min 0 200 = 0 ∧
    (queryRecent storeTies (some 0) none).length = 2 ∧
    queryRecent storeTies none none = [mTie2, mTie1] ∧
    mTie2.createdAt = mTie1.createdAt := by
  have hfil : storeTies.messages.filter (fun m => m.room == some (effRoom none))
      = [mTie1, mTie2] := by decide
  have hsorted : List.Pairwise (fun a b => byNewest a b = true) [mTie1, mTie2] := by
    decide
  have hms : List.mergeSort [mTie1, mTie2] byNewest = [mTie1, mTie2] :=
    List.mergeSort_of_sorted hsorted
  refine ⟨rfl, ?_, ?_, rfl⟩
  · rw [queryRecent_eq, hfil, hms]
    decide
  · rw [queryRecent_eq, hfil, hms]
    decide

/-- C4 amended: the history query returns at most 200 entries, and at most
`limit` when a positive `limit` is given; a `limit` of 0 is treated like an
absent one (50); absent room defaults to `"global"`; the sequence is ordered
nondecreasingly (oldest-first, ties permitted) by `createdAt`; and it is
empty (not an error) when no message matches the effective room. -/
theorem query_recent_spec (st : Store) (lp : Option Nat) (rp : Option String) :
    (queryRecent st lp rp).length ≤ 200 ∧
    (∀ n, 0 < n → (queryRecent st (some n) rp).length ≤ n) ∧
    queryRecent st (some 0) rp = queryRecent st (some 50) rp ∧
    queryRecent st none rp = queryRecent st (some 50) rp ∧
    queryRecent st lp none = queryRecent st lp (some "global") ∧
    (queryRecent st lp rp).Pairwise (fun a b => a.createdAt ≤ b.createdAt) ∧
    ((∀ m ∈ st.messages, m.room ≠ some (effRoom rp)) → queryRecent st lp rp = []) := by
  refine ⟨?_, ?_, ?_, ?_, ?_, ?_, ?_⟩
  · rw [queryRecent_eq]
    have h1 : (((st.messages.filter (fun m => m.room == some (effRoom rp))).mergeSort
        byNewest).take (effLimit lp)).length ≤ effLimit lp := by
      simp
    have h2 : effLimit lp ≤ 200 := by
      cases lp <;> simp [effLimit]
    simpa using le_trans h1 h2
  · intro n hn
    rw [queryRecent_eq]
    have h1 : (((st.messages.filter (fun m => m.room == some (effRoom rp))).mergeSort
        byNewest).take (effLimit (some n))).length ≤ effLimit (some n) := by
      simp
    have h2 : effLimit (some n) ≤ n := by
      simp [effLimit, Nat.pos_iff_ne_zero.mp hn]
    simpa using le_trans h1 h2
  · rfl
  · rfl
  · rfl
  · rw [queryRecent_eq, List.pairwise_reverse]
    have hs := List.sorted_mergeSort byNewest_trans byNewest_total
      (st.messages.filter (fun m => m.room == some (effRoom rp)))
    have ht := hs.sublist (List.take_sublist (effLimit lp) _)
    exact ht.imp (fun hab => by simpa [byNewest] using hab)
  · intro hnone
    have hfil : st.messages.filter (fun m => m.room == some (effRoom rp)) = [] := by
      rw [List.filter_eq_nil_iff]
      intro m hm
      simpa using hnone m hm
    rw [queryRecent_eq, hfil]
    simp

/-- Inversion of a successful `Message.create`: the persisted record carries
the draft's fields with the store-assigned id and timestamp, and the store
gains exactly that record at the end. -/
theorem appendStore_ok (draft : MessageDraft) (st : Store) (ok : Bool) (now : Nat)
    (saved : StoredMessage) (store2 : Store)
    (h : appendStore draft st ok now = .ok (saved, store2)) :
    saved = { id := st.nextId, room := draft.room, text := draft.text.getD "",
              sender := draft.sender, senderId := draft.senderId, «to» := draft.«to»,
              isPrivate := draft.isPrivate, createdAt := now } ∧
    store2 = { messages := st.messages ++ [saved], nextId := st.nextId + 1 } := by
  by_cases hv : validText draft.text
  · cases ok with
    | true =>
        simp only [appendStore, hv, Bool.not_true, Bool.false_eq_true, if_false,
          Except.ok.injEq, Prod.mk.injEq] at h
        obtain ⟨h1, h2⟩ := h
        refine ⟨h1.symm, ?_⟩
        rw [← h2, h1]
    | false =>
        simp [appendStore, hv] at h
  · simp [appendStore, hv] at h

/-- C1 counterexample: a public send with `room = ""` succeeds and broadcasts,
but the history query cannot name that room: `req.query.room || 'global'`
remaps `""` to `"global"`, so neither the query for `""` nor the default
query returns the persisted message. -/
theorem room_empty_unretrievable_cex :
    sendEmptyRoom.1.store.messages = [mEmptyRoom] ∧
    sendEmptyRoom.2 = [.broadcast (.receiveMessage (chatProjection mEmptyRoom))] ∧
    queryRecent sendEmptyRoom.1.store (some 50) (some "") = [] ∧
    queryRecent sendEmptyRoom.1.store none none = [] ∧
    effRoom (some "") = "global" := by
  have hst : sendEmptyRoom.1.store.messages = [mEmptyRoom] := by rfl
  have hf1 : sendEmptyRoom.1.store.messages.filter
      (fun m => m.room == some (effRoom (some ""))) = [] := by
    rw [hst]; decide
  have hf2 : sendEmptyRoom.1.store.messages.filter
      (fun m => m.room == some (effRoom none)) = [] := by
    rw [hst]; decide
  refine ⟨hst, by rfl, ?_, ?_, by rfl⟩
  · rw [queryRecent_eq, hf1]
    simp
  · rw [queryRecent_eq, hf2]
    simp

/-- C1 amended: for a public send whose `Message.create` succeeds and whose
effective room (payload room, defaulted to `"global"` when absent) is not the
empty string, the message is persisted before the single broadcast, the
broadcast payload is the exact projection of the persisted record, and —
provided the room holds at most the 200-entry cap — a subsequent history
query for that room (with limit set to the room's message count) returns the
message with the same id and timestamp. -/
theorem public_send_persist_then_broadcast (st : SrvState) (sid : String)
    (p : SendPayload) (now : Nat) (saved : StoredMessage) (store2 : Store)
    (hap : appendStore (publicDraft st.users sid p) st.store true now
      = .ok (saved, store2))
    (hroom : p.room.getD "global" ≠ "")
    (hcap : roomCount store2 saved.room ≤ 200) :
    (handleSendMessage st sid p true now).1.store = store2 ∧
    store2.messages = st.store.messages ++ [saved] ∧
    (handleSendMessage st sid p true now).2
      = [.broadcast (.receiveMessage (chatProjection saved))] ∧
    saved ∈ queryRecent store2 (some (roomCount store2 saved.room)) saved.room := by
  obtain ⟨hsaved, hstore2⟩ := appendStore_ok _ _ _ _ _ _ hap
  have hres : handleSendMessage st sid p true now
      = ({ st with store := store2 },
         [.broadcast (.receiveMessage (chatProjection saved))]) := by
    simp [handleSendMessage, hap]
  have hsroom : saved.room = some (p.room.getD "global") := by
    rw [hsaved]
    rfl
  have heff : effRoom saved.room = p.room.getD "global" := by
    rw [hsroom]
    simp [effRoom, hroom]
  have hmemL : saved ∈ store2.messages.filter
      (fun m => m.room == some (effRoom saved.room)) := by
    rw [List.mem_filter]
    refine ⟨by rw [hstore2]; simp, ?_⟩
    rw [heff, hsroom]
    simp
  refine ⟨by rw [hres], by rw [hstore2], by rw [hres], ?_⟩
  have hcnt : (store2.messages.filter
      (fun m => m.room == some (effRoom saved.room))).length ≠ 0 := by
    intro h0
    rw [List.length_eq_zero] at h0
    rw [h0] at hmemL
    cases hmemL
  have hlim : effLimit (some (roomCount store2 saved.room))
      = roomCount store2 saved.room := by
    simp only [effLimit, roomCount, if_neg hcnt]
    exact Nat.min_eq_left hcap
  rw [queryRecent_eq, hlim]
  rw [List.take_of_length_le (by simp [roomCount])]
  simpa using hmemL

/-- C1 witness: a public send with defaulted room on the empty state. -/
theorem public_send_persist_then_broadcast_witness :
    (handleSendMessage emptySrv "c1"
        { message := some "hi", text := none, room := none } true 0).1.store
      = pubStore ∧
    pubStore.messages = emptySrv.store.messages ++ [pubSaved] ∧
    (handleSendMessage emptySrv "c1"
        { message := some "hi", text := none, room := none } true 0).2
      = [.broadcast (.receiveMessage (chatProjection pubSaved))] ∧
    pubSaved ∈ queryRecent pubStore (some (roomCount pubStore pubSaved.room))
        pubSaved.room :=
  public_send_persist_then_broadcast emptySrv "c1"
    { message := some "hi", text := none, room := none } 0 pubSaved pubStore
    rfl (by decide) (by decide)

/-- C8: a successful private send to `c2` emits exactly two unicasts — the
room of the target socket and the echo back to the sender — and, whenever
both sockets are connected, the transport delivery set is exactly
`{c2, sender}`: no broadcast, and no third connection receives it. -/
theorem private_send_delivery (st : SrvState) (sid c2 : String)
    (q : PrivateSendPayload) (now : Nat) (saved : StoredMessage) (store2 : Store)
    (hto : q.«to» = some c2)
    (hap : appendStore (privateDraft st.users sid q) st.store true now
      = .ok (saved, store2)) :
    (handlePrivateMessage st sid q true now).1.store = store2 ∧
    (handlePrivateMessage st sid q true now).1.users = st.users ∧
    (handlePrivateMessage st sid q true now).1.typingUsers = st.typingUsers ∧
    (handlePrivateMessage st sid q true now).2
      = [.toRoom (some c2) (.privateMessageEv (privateProjection saved)),
         .toSelf (.privateMessageEv (privateProjection saved))] ∧
    (∀ conns : List String, sid ∈ conns → c2 ∈ conns → ∀ c,
      c ∈ deliveries (handlePrivateMessage st sid q true now).2 conns sid
        ↔ (c = c2 ∨ c = sid)) := by
  have hres : handlePrivateMessage st sid q true now
      = ({ st with store := store2 },
         [.toRoom (some c2) (.privateMessageEv (privateProjection saved)),
          .toSelf (.privateMessageEv (privateProjection saved))]) := by
    simp [handlePrivateMessage, hap, hto]
  rw [hres]
  refine ⟨rfl, rfl, rfl, rfl, ?_⟩
  intro conns hsid hc2 c
  simp only [deliveries, deliveredTo, List.map_cons, List.map_nil, List.flatten,
    List.append_nil, List.mem_append, List.mem_filter, List.mem_singleton,
    Bool.and_eq_true, beq_iff_eq, bne_iff_ne, Option.some.injEq]
  constructor
  · rintro (⟨_, hcc2, _⟩ | hcs)
    · exact Or.inl hcc2
    · exact Or.inr hcs
  · rintro (hcc2 | hcs)
    · by_cases hcsid : c = sid
      · exact Or.inr hcsid
      · exact Or.inl ⟨hcc2 ▸ hc2, hcc2, hcsid⟩
    · exact Or.inr hcs

/-- C8 witness: a private send from `"c1"` to `"c2"` on the empty state,
checked against the connection set `["c1", "c2", "c3"]`. -/
theorem private_send_delivery_witness :
    (handlePrivateMessage emptySrv "c1" { «to» := some "c2", message := some "yo" }
        true 0).1.store = privStore ∧
    (handlePrivateMessage emptySrv "c1" { «to» := some "c2", message := some "yo" }
        true 0).1.users = emptySrv.users ∧
    (handlePrivateMessage emptySrv "c1" { «to» := some "c2", message := some "yo" }
        true 0).1.typingUsers = emptySrv.typingUsers ∧
    (handlePrivateMessage emptySrv "c1" { «to» := some "c2", message := some "yo" }
        true 0).2
      = [.toRoom (some "c2") (.privateMessageEv (privateProjection privSaved)),
         .toSelf (.privateMessageEv (privateProjection privSaved))] ∧
    (∀ conns : List String, "c1" ∈ conns → "c2" ∈ conns → ∀ c,
      c ∈ deliveries (handlePrivateMessage emptySrv "c1"
          { «to» := some "c2", message := some "yo" } true 0).2 conns "c1"
        ↔ (c = "c2" ∨ c = "c1")) :=
  private_send_delivery emptySrv "c1" "c2"
    { «to» := some "c2", message := some "yo" } 0 privSaved privStore rfl rfl
